import Mathlib

/-!
Verification of the jorah-policy-middleware core (src/src/index.ts).

The middleware delegates authorization to a remote policy decision point:
it extracts required fields from the request, builds an evaluation payload,
posts it, attaches the decision to the request, and enforces (or, in
dry-run mode, merely tags) the allow/deny verdict.

JavaScript values flowing through the middleware (decision documents,
payloads, configuration bags) are modelled by `JVal`; JS objects are
association lists in key-insertion order, as JS string-keyed objects
enumerate.  Fallible JS computations are modelled with `Except`.
-/

namespace Jorah

/-- A JavaScript value: `undefined`, `null`, booleans, numbers, strings and
string-keyed objects (fields in insertion order). -/
inductive JVal where
  | undef : JVal
  | null : JVal
  | bool : Bool → JVal
  | num : Int → JVal
  | str : String → JVal
  | obj : List (String × JVal) → JVal

/-- A JS error value (only its message matters to the middleware). -/
structure JsError where
  message : String
deriving DecidableEq

/-- Lookup of a key in an object's field list (first occurrence). -/
def objLookup {α : Type} (k : String) : List (String × α) → Option α
  | [] => none
  | p :: rest => if p.1 = k then some p.2 else objLookup k rest

/-- JS property assignment `o[k] = v` / object-literal override: an existing
key keeps its position and gets the new value, a fresh key is appended. -/
def objSet {α : Type} (o : List (String × α)) (k : String) (v : α) : List (String × α) :=
  match o with
  | [] => [(k, v)]
  | p :: rest => if p.1 = k then (k, v) :: rest else p :: objSet rest k v

/-- JS optional-chained property access `v?.[k]`: `undefined` unless `v` is
an object carrying the key. -/
def jvalGet (v : JVal) (k : String) : JVal :=
  match v with
  | .obj fs => (objLookup k fs).getD JVal.undef
  | _ => JVal.undef

/-- JS truthiness: `undefined`, `null`, `false`, `0` and `""` are falsy. -/
def jsTruthy : JVal → Bool
  | .undef => false
  | .null => false
  | .bool b => b
  | .num n => n != 0
  | .str s => s ≠ ""
  | .obj _ => true

/-- Does `pat` occur as the leading characters of `s`? -/
def matchesAt : List Char → List Char → Bool
  | [], _ => true
  | _ :: _, [] => false
  | p :: ps, c :: cs => p = c && matchesAt ps cs

/-- JS `String.prototype.replace` with a string pattern, on character lists:
replaces only the first occurrence of `pat`. -/
def jsReplaceFirstL (pat repl : List Char) : List Char → List Char
  | [] => if matchesAt pat [] then repl else []
  | c :: cs =>
    if matchesAt pat (c :: cs) then repl ++ (c :: cs).drop pat.length
    else c :: jsReplaceFirstL pat repl cs

/-- JS `s.replace(pat, repl)` (string pattern: first occurrence only). -/
def jsReplaceFirst (s pat repl : String) : String :=
  (jsReplaceFirstL pat.toList repl.toList s.toList).asString

/-- Index of the first occurrence of `pat` in `s`, if any. -/
def findSubIdx (pat : List Char) : List Char → Option Nat
  | [] => if matchesAt pat [] then some 0 else none
  | c :: cs =>
    if matchesAt pat (c :: cs) then some 0
    else (findSubIdx pat cs).map (· + 1)

/-- Removal of the first occurrence of `pat` from `s`, phrased by cutting at
the first match index (used to state the corrected decision-path rule). -/
def removeFirstSub (s pat : String) : String :=
  match findSubIdx pat.toList s.toList with
  | some i => ((s.toList.take i) ++ (s.toList.drop (i + pat.toList.length))).asString
  | none => s

/-- The payload sent to the decision point together with the decision and the
full decision path; attached to the request as `req.policyEvaluation`. -/
structure PolicyEvaluation where
  request : JVal
  decision : JVal
  path : String

/-- The slice of an Express request the middleware reads and writes:
the base mount path, the HTTP method, the named route parameters (in
declaration order) and the attached `policyEvaluation`. -/
structure Request where
  baseUrl : String
  method : String
  params : List (String × String)
  policyEvaluation : Option PolicyEvaluation := none

/-- The error built by `new Error('OPA-POLICY - FORBIDDEN')`. -/
def forbiddenError : JsError := ⟨"OPA-POLICY - FORBIDDEN"⟩

/-- The handler returned by `onDecisionDefault`:
`({ policyEvaluation }, res, next) => { const { decision } = policyEvaluation;
decision?.allow ? next() : next(new Error('OPA-POLICY - FORBIDDEN')); }`.
Destructuring a missing `policyEvaluation` throws; otherwise the handler
calls its continuation once, with `.ok none` for `next()` and
`.ok (some e)` for `next(e)`. -/
def onDecisionDefault (req : Request) : Except JsError (Option JsError) :=
  match req.policyEvaluation with
  | none => .error ⟨"TypeError: Cannot destructure property of undefined"⟩
  | some pe =>
    if jsTruthy (jvalGet pe.decision "allow") then .ok none
    else .ok (some forbiddenError)

/-- The resolver returned by `decisionPathDefault`:
`req => req.baseUrl + reduce(req.params, (acc, param, name) =>
acc + '/' + name.replace('_id', ''), '')`. -/
def decisionPathDefault (req : Request) : String :=
  req.baseUrl ++ req.params.foldl (fun acc p => acc ++ "/" ++ jsReplaceFirst p.1 "_id" "") ""

/-- The `req` metadata sub-object `{ method: req.method, params: req.params }`
of the default evaluation-request builder. -/
def reqMeta (req : Request) : JVal :=
  .obj [("method", .str req.method),
        ("params", .obj (req.params.map (fun p => (p.1, JVal.str p.2))))]

/-- `toPolicyEvaluationRequestDefault`: the payload
`{ input: { ...required, req: { method, params } } }`; the spread lays out
the required fields first and then writes the `req` key. -/
def toPolicyEvaluationRequestDefault (req : Request) (required : List (String × JVal)) : JVal :=
  .obj [("input", .obj (objSet required "req" (reqMeta req)))]

/-- `fetchRequiredData`: folds the required-extractor mapping, storing the
extracted value on success and `undefined` when the extractor throws (the
exception is logged and swallowed). -/
def fetchRequiredData (req : Request)
    (required : List (String × (Request → Except JsError JVal))) : List (String × JVal) :=
  required.foldl
    (fun acc kf =>
      match kf.2 req with
      | .ok v => objSet acc kf.1 v
      | .error _ => objSet acc kf.1 JVal.undef)
    []

/-- The process-wide configuration and ambient environment read by the
handler: the decision-point base address, the `dryRun` sub-structure, the
`OPA_ADMISSION_CONTROL_DISABLED === 'true'` override and the
`NODE_ENV === 'production'` flag. -/
structure MwConfig where
  url : String
  dryRunEnabled : Bool
  dryRunHeader : String
  admissionDisabledEnv : Bool
  production : Bool

/-- The effective pluggable stages of one route's handler.  A decision
handler is modelled by what it does with its continuation: `.error e` for a
synchronous throw, `.ok none` for `next()`, `.ok (some e)` for `next(e)`. -/
structure Stages where
  required : List (String × (Request → Except JsError JVal))
  toPER : Request → List (String × JVal) → Except JsError JVal
  dpath : Request → Except JsError String
  doPost : Request → String → JVal → Except JsError JVal
  onDecision : Request → Except JsError (Option JsError)

/-- What the produced handler finally does with the host continuation. -/
inductive MwOutcome where
  | nextOk : MwOutcome
  | nextErr : JsError → MwOutcome
deriving DecidableEq

/-- Observable effects of one run of the produced request handler. -/
structure MwResult where
  outcome : MwOutcome
  headersAppended : List (String × String)
  attached : Option PolicyEvaluation
  handlerInvokedOn : Option PolicyEvaluation
  auditLogged : Bool
  postCalls : Nat

/-- The request handler produced by `opaMiddleware`: fetch required data,
build the payload, resolve the full decision path, post, attach
`policyEvaluation`, then branch on dry-run/disabled versus enforced mode;
any exception is caught and forwarded with `next(err)`. -/
def opaMiddleware (cfg : MwConfig) (st : Stages) (req : Request) : MwResult :=
  match st.toPER req (fetchRequiredData req st.required) with
  | .error e => ⟨.nextErr e, [], none, none, false, 0⟩
  | .ok opaRequest =>
    match st.dpath req with
    | .error e => ⟨.nextErr e, [], none, none, false, 0⟩
    | .ok p =>
      let policyPath := cfg.url ++ p
      match st.doPost req policyPath opaRequest with
      | .error e => ⟨.nextErr e, [], none, none, false, 1⟩
      | .ok data =>
        let pe : PolicyEvaluation := ⟨opaRequest, data, policyPath⟩
        let req' : Request := { req with policyEvaluation := some pe }
        if cfg.admissionDisabledEnv || cfg.dryRunEnabled then
          match st.onDecision req' with
          | .error e => ⟨.nextErr e, [], some pe, some pe, false, 1⟩
          | .ok err =>
            ⟨.nextOk, [(cfg.dryRunHeader, if err.isSome then "reject" else "allow")],
             some pe, some pe, cfg.production, 1⟩
        else
          match st.onDecision req' with
          | .error e => ⟨.nextErr e, [], some pe, some pe, false, 1⟩
          | .ok none => ⟨.nextOk, [], some pe, some pe, false, 1⟩
          | .ok (some e) => ⟨.nextErr e, [], some pe, some pe, false, 1⟩

mutual

/-- `lodash.merge` on values: an `undefined` source value keeps the
destination, two plain objects merge recursively field by field, and any
other source value replaces the destination. -/
def mergeVal (d s : JVal) : JVal :=
  match d, s with
  | d, .undef => d
  | .obj a, .obj b => .obj (mergeFields a b)
  | _, v => v
termination_by (sizeOf s, 0)
decreasing_by simp_wf; omega

/-- Folds the source fields of a `lodash.merge` into the destination. -/
def mergeFields (dst : List (String × JVal)) (src : List (String × JVal)) :
    List (String × JVal) :=
  match src with
  | [] => dst
  | (k, v) :: rest => mergeFields (setField dst k v) rest
termination_by (sizeOf src, 0)
decreasing_by all_goals simp_wf; omega

/-- Merges one source field into the destination: an existing key keeps its
position and merges the values recursively, a fresh key is appended. -/
def setField (dst : List (String × JVal)) (k : String) (v : JVal) :
    List (String × JVal) :=
  match dst with
  | [] => [(k, v)]
  | p :: rest => if p.1 = k then (p.1, mergeVal p.2 v) :: rest else p :: setField rest k v
termination_by (sizeOf v + 1, sizeOf dst)
decreasing_by all_goals simp_wf; omega

end

/-- `merge({}, defaults, options)`: the effective configuration object of
one `opaMiddleware(options)` invocation. -/
def effectiveConfig (d o : JVal) : JVal := mergeVal (mergeVal (JVal.obj []) d) o

/-- The field list of an object value (empty for non-objects). -/
def objFields : JVal → List (String × JVal)
  | .obj fs => fs
  | _ => []

/-- The value an extractor contributes to the required-data map: the
extracted value on success, `undefined` when it throws. -/
def extractVal (req : Request) (f : Request → Except JsError JVal) : JVal :=
  match f req with
  | .ok v => v
  | .error _ => JVal.undef

theorem objLookup_objSet_self {α : Type} (o : List (String × α)) (k : String) (v : α) :
    objLookup k (objSet o k v) = some v := by
  induction o with
  | nil => simp [objSet, objLookup]
  | cons p rest ih =>
    by_cases h : p.1 = k
    · simp [objSet, h, objLookup]
    · simp [objSet, h, objLookup, ih]

theorem objLookup_objSet_ne {α : Type} (o : List (String × α)) (k k' : String) (v : α)
    (h : k' ≠ k) : objLookup k' (objSet o k v) = objLookup k' o := by
  have hkk : ¬k = k' := fun hh => h hh.symm
  induction o with
  | nil => simp [objSet, objLookup, hkk]
  | cons p rest ih =>
    by_cases hp : p.1 = k
    · subst hp
      simp [objSet, objLookup, hkk]
    · simp only [objSet, hp, if_neg hp, objLookup]
      by_cases hp' : p.1 = k'
      · simp [objLookup, hp', ih]
      · simp [objLookup, hp', ih]

theorem objLookup_eq_none_of_not_mem {α : Type} (l : List (String × α)) (k : String)
    (h : k ∉ l.map Prod.fst) : objLookup k l = none := by
  induction l with
  | nil => simp [objLookup]
  | cons p rest ih =>
    simp only [List.map_cons, List.mem_cons] at h
    push_neg at h
    have h1 : ¬p.1 = k := fun hh => h.1 hh.symm
    simp [objLookup, h1, ih h.2]

theorem objLookup_setField_self (d : List (String × JVal)) (k : String) (v : JVal) :
    objLookup k (setField d k v) =
      some (match objLookup k d with
            | some vd => mergeVal vd v
            | none => v) := by
  induction d with
  | nil => simp [setField, objLookup]
  | cons p rest ih =>
    by_cases h : p.1 = k
    · simp [setField, h, objLookup]
    · simp [setField, h, objLookup, ih]

theorem objLookup_setField_ne (d : List (String × JVal)) (k k' : String) (v : JVal)
    (h : k' ≠ k) : objLookup k' (setField d k v) = objLookup k' d := by
  have hkk : ¬k = k' := fun hh => h hh.symm
  induction d with
  | nil => simp [setField, objLookup, hkk]
  | cons p rest ih =>
    by_cases hp : p.1 = k
    · subst hp
      simp [setField, objLookup, hkk]
    · simp only [setField, if_neg hp, objLookup]
      by_cases hp' : p.1 = k'
      · simp [objLookup, hp', ih]
      · simp [objLookup, hp', ih]

theorem mergeFields_objLookup (o d : List (String × JVal))
    (ho : (o.map Prod.fst).Nodup) (k : String) :
    objLookup k (mergeFields d o) =
      match objLookup k o, objLookup k d with
      | some vo, some vd => some (mergeVal vd vo)
      | some vo, none => some vo
      | none, some vd => some vd
      | none, none => none := by
  induction o generalizing d with
  | nil => cases h : objLookup k d <;> simp [mergeFields, objLookup, h]
  | cons p rest ih =>
    obtain ⟨k0, v0⟩ := p
    simp only [List.map_cons, List.nodup_cons] at ho
    rw [show mergeFields d ((k0, v0) :: rest) = mergeFields (setField d k0 v0) rest from by
      simp [mergeFields]]
    rw [ih _ ho.2]
    by_cases hk : k = k0
    · subst hk
      have hrest : objLookup k rest = none :=
        objLookup_eq_none_of_not_mem rest k ho.1
      rw [hrest, objLookup_setField_self]
      cases h : objLookup k d <;> simp [objLookup, h]
    · rw [objLookup_setField_ne d k0 k v0 hk]
      have hk0 : ¬k0 = k := fun hh => hk hh.symm
      simp [objLookup, hk0]

theorem jsReplaceFirstL_eq_cut (pat repl s : List Char) :
    jsReplaceFirstL pat repl s =
      match findSubIdx pat s with
      | some i => s.take i ++ repl ++ s.drop (i + pat.length)
      | none => s := by
  induction s with
  | nil =>
    by_cases h : matchesAt pat [] = true
    · simp [jsReplaceFirstL, findSubIdx, h]
    · simp [jsReplaceFirstL, findSubIdx, h]
  | cons c cs ih =>
    by_cases h : matchesAt pat (c :: cs) = true
    · simp [jsReplaceFirstL, findSubIdx, h]
    · simp only [jsReplaceFirstL, h, if_false, findSubIdx, ih, Bool.false_eq_true]
      cases hf : findSubIdx pat cs with
      | none => simp
      | some i =>
        simp only [Option.map_some]
        have harith : i + 1 + pat.length = (i + pat.length) + 1 := by omega
        simp [List.take_succ_cons, List.drop_succ_cons, harith]

theorem jsReplaceFirst_empty_eq_removeFirstSub (s pat : String) :
    jsReplaceFirst s pat "" = removeFirstSub s pat := by
  unfold jsReplaceFirst removeFirstSub
  rw [jsReplaceFirstL_eq_cut]
  cases h : findSubIdx pat.toList s.toList with
  | none =>
    simp only [h]
    exact String.asString_toList s
  | some i => simp [h]

/-- Concatenation of a list of path segments. -/
def segsConcat : List String → String
  | [] => ""
  | s :: rest => s ++ segsConcat rest

theorem foldl_path_eq_segsConcat (f : String → String) (l : List (String × String)) :
    ∀ acc : String,
      l.foldl (fun acc p => acc ++ "/" ++ f p.1) acc =
        acc ++ segsConcat (l.map (fun p => "/" ++ f p.1)) := by
  induction l with
  | nil => intro acc; simp [segsConcat]
  | cons p rest ih =>
    intro acc
    rw [List.foldl_cons, List.map_cons, ih]
    simp [segsConcat, String.append_assoc]

/-- The amended default decision-path rule: the base mount path followed by
one '/'-prefixed segment per named path parameter in declaration order, each
segment being the parameter's name with the first occurrence of the
substring `_id` removed. -/
def decisionPathAmended (req : Request) : String :=
  req.baseUrl ++ segsConcat (req.params.map (fun p => "/" ++ removeFirstSub p.1 "_id"))

/-- The decision-path rule as the claim words it: each segment is the
parameter's name with a trailing `_id` suffix stripped (and left unchanged
when the name does not end in `_id`). -/
def stripTrailingId (s : String) : String :=
  if matchesAt "_id".toList.reverse s.toList.reverse then
    (s.toList.take (s.toList.length - 3)).asString
  else s

/-- The default decision-path resolver as claimed: base mount path plus
'/'-prefixed segments with trailing `_id` suffixes stripped. -/
def decisionPathClaimed (req : Request) : String :=
  req.baseUrl ++ segsConcat (req.params.map (fun p => "/" ++ stripTrailingId p.1))

theorem fetchRequiredData_objLookup_not_mem
    (req : Request) (l : List (String × (Request → Except JsError JVal))) (k : String)
    (h : k ∉ l.map Prod.fst) :
    ∀ acc,
      objLookup k (l.foldl
        (fun acc kf =>
          match kf.2 req with
          | .ok v => objSet acc kf.1 v
          | .error _ => objSet acc kf.1 JVal.undef) acc) = objLookup k acc := by
  induction l with
  | nil => intro acc; simp
  | cons p rest ih =>
    simp only [List.map_cons, List.mem_cons] at h
    push_neg at h
    intro acc
    rw [List.foldl_cons, ih h.2]
    cases hf : p.2 req with
    | ok v => simp [hf, objLookup_objSet_ne _ _ _ _ h.1]
    | error e => simp [hf, objLookup_objSet_ne _ _ _ _ h.1]

theorem fetchRequiredData_objLookup_aux
    (req : Request) (l : List (String × (Request → Except JsError JVal)))
    (k : String) (f : Request → Except JsError JVal)
    (hnd : (l.map Prod.fst).Nodup) (hmem : (k, f) ∈ l) :
    ∀ acc,
      objLookup k (l.foldl
        (fun acc kf =>
          match kf.2 req with
          | .ok v => objSet acc kf.1 v
          | .error _ => objSet acc kf.1 JVal.undef) acc) = some (extractVal req f) := by
  induction l with
  | nil => cases hmem
  | cons p rest ih =>
    simp only [List.map_cons, List.nodup_cons] at hnd
    intro acc
    rw [List.foldl_cons]
    rcases List.mem_cons.mp hmem with hhead | htail
    · have hp1 : p.1 = k := by rw [← hhead]
      have hp2 : p.2 = f := by rw [← hhead]
      rw [fetchRequiredData_objLookup_not_mem req rest k (hp1 ▸ hnd.1)]
      cases hf : p.2 req with
      | ok v =>
        simp only [hf, hp1, objLookup_objSet_self]
        rw [extractVal, ← hp2, hf]
      | error e =>
        simp only [hf, hp1, objLookup_objSet_self]
        rw [extractVal, ← hp2, hf]
    · exact ih hnd.2 htail _

/-- A request carrying the decision of end-to-end scenario 1 of the spec:
the decision point answered `{decision_id: "x", result: {allow: true}}`. -/
def reqAllowTrue : Request :=
  { baseUrl := "/users", method := "GET", params := [],
    policyEvaluation := some
      ⟨JVal.obj [],
       JVal.obj [("decision_id", JVal.str "x"),
                 ("result", JVal.obj [("allow", JVal.bool true)])],
       "http://opa:8181/v1/data/users"⟩ }

/-- The same request but with a decision carrying a top-level `allow` flag
and no `result.allow` at all. -/
def reqTopLevelAllow : Request :=
  { reqAllowTrue with
    policyEvaluation := some
      ⟨JVal.obj [], JVal.obj [("decision_id", JVal.str "x"), ("allow", JVal.bool true)],
       "http://opa:8181/v1/data/users"⟩ }

/-- Claim C1 (code bug): the default Decision Handler is specified to read
`result.allow` of the decision, but the code reads the top-level
`decision.allow`.  On the decision `{decision_id: "x", result: {allow:
true}}` the handler rejects with the policy-forbidden error even though
`result.allow` is true, and it proceeds exactly when a top-level `allow`
flag is truthy. -/
theorem c1_onDecisionDefault_ignores_result_allow :
    onDecisionDefault reqAllowTrue = .ok (some forbiddenError) ∧
    onDecisionDefault reqTopLevelAllow = .ok none :=
  ⟨rfl, rfl⟩

/-- A request whose route parameter `x_idy` contains `_id` in the middle of
its name rather than as a trailing suffix. -/
def reqMidId : Request := { baseUrl := "/users", method := "GET", params := [("x_idy", "1")] }

/-- Claim C4, counterexample: on the parameter name `x_idy` the default
resolver removes the embedded `_id` (segment `xy`), while the claimed
trailing-suffix-stripping rule would leave the name unchanged (segment
`x_idy`), so the claim as stated is false. -/
theorem c4_counterexample_trailing_strip :
    decisionPathDefault reqMidId = "/users/xy" ∧
    decisionPathClaimed reqMidId = "/users/x_idy" ∧
    decisionPathDefault reqMidId ≠ decisionPathClaimed reqMidId :=
  ⟨by decide, by decide, by decide⟩

/-- Claim C4, amended: the default decision-path resolver returns the
request's base mount path concatenated, in the route's parameter declaration
order, with one '/'-prefixed segment per named path parameter, each segment
equal to the parameter's name with the first occurrence of the substring
`_id` removed (for names whose only `_id` is a trailing suffix this strips
that suffix, e.g. `user_id` contributes `user`). -/
theorem c4_decision_path_first_occurrence (req : Request) :
    decisionPathDefault req = decisionPathAmended req := by
  unfold decisionPathDefault decisionPathAmended
  rw [foldl_path_eq_segsConcat (fun s => jsReplaceFirst s "_id" "") req.params ""]
  simp [jsReplaceFirst_empty_eq_removeFirstSub]

/-- Claim C8: the default decision-path resolver is deterministic: two
requests agreeing on the base mount path and the named path parameters
resolve to the same string, whatever their other fields. -/
theorem c8_decision_path_deterministic (r1 r2 : Request)
    (hb : r1.baseUrl = r2.baseUrl) (hp : r1.params = r2.params) :
    decisionPathDefault r1 = decisionPathDefault r2 := by
  unfold decisionPathDefault
  rw [hb, hp]

/-- A GET request on the `/users/:user_id` route. -/
def reqUserGet : Request :=
  { baseUrl := "/users", method := "GET", params := [("user_id", "42")] }

/-- A POST request with the same base mount path and parameters but a
different method and an attached evaluation. -/
def reqUserPost : Request :=
  { baseUrl := "/users", method := "POST", params := [("user_id", "42")],
    policyEvaluation := some ⟨JVal.obj [], JVal.obj [], ""⟩ }

/-- Witness for C8 at two concrete requests differing only in method and
attached evaluation. -/
theorem c8_decision_path_deterministic_witness :
    decisionPathDefault reqUserGet = decisionPathDefault reqUserPost :=
  c8_decision_path_deterministic reqUserGet reqUserPost rfl rfl

/-- Claim C10: in the default evaluation-request builder the request-metadata
object is written after the spread of the required fields, so the payload's
`input.req` equals `{method, params}` for every request and every required
map — also when the map itself carries a key named `req`. -/
theorem c10_req_key_overwritten (req : Request) (required : List (String × JVal)) :
    jvalGet (jvalGet (toPolicyEvaluationRequestDefault req required) "input") "req" =
      reqMeta req := by
  unfold toPolicyEvaluationRequestDefault jvalGet
  simp [objLookup, objLookup_objSet_self]

/-- The policy configuration of end-to-end scenario 3: dry-run enabled with
header `x-authorizer`, no environment override, not in production mode. -/
def cfgDryRun : MwConfig :=
  { url := "http://opa:8181/v1/data", dryRunEnabled := true, dryRunHeader := "x-authorizer",
    admissionDisabledEnv := false, production := false }

/-- A decision answering `{decision_id: "x", result: {allow: false}}`. -/
def decisionAllowFalse : JVal :=
  .obj [("decision_id", JVal.str "x"), ("result", JVal.obj [("allow", JVal.bool false)])]

/-- A bare request on the `/users` mount with no route parameters. -/
def reqUsers : Request := { baseUrl := "/users", method := "GET", params := [] }

/-- Stages whose decision handler is the closure the `onDecisionDefault`
factory returns (so it does call its continuation — this is NOT the
program's default wiring, which stores the factory itself uninvoked), whose
builder and resolver are the invoked default closures, and whose decision
point denies. -/
def stDryRun : Stages :=
  { required := [],
    toPER := fun req required => .ok (toPolicyEvaluationRequestDefault req required),
    dpath := fun req => .ok (decisionPathDefault req),
    doPost := fun _ _ _ => .ok decisionAllowFalse,
    onDecision := onDecisionDefault }

/-- The pluggable stages with the decision handler observed through ALL of
its continuation invocations: `.error e` for a synchronous throw, and
`.ok calls` when the handler returns, `calls` listing the argument of each
`next(...)` invocation it made, in order (`none` for a bare `next()`, and
the empty list when the handler never calls the continuation at all). -/
structure RawStages where
  required : List (String × (Request → Except JsError JVal))
  toPER : Request → List (String × JVal) → Except JsError JVal
  dpath : Request → Except JsError String
  doPost : Request → String → JVal → Except JsError JVal
  onDecision : Request → Except JsError (List (Option JsError))

/-- Observable effects of one run of the produced request handler when the
decision handler may call its continuation any number of times:
`nextCalls` lists the arguments of the host-continuation invocations. -/
structure MwRawResult where
  nextCalls : List (Option JsError)
  headersAppended : List (String × String)
  attached : Option PolicyEvaluation
  postCalls : Nat

/-- The produced request handler over `RawStages`: identical control flow to
`opaMiddleware`, but in dry-run/disabled mode each wrapper invocation
appends one header and forwards one bare `next()`, so a handler that never
invokes its continuation ends the run with no host-continuation call and no
header. -/
def opaMiddlewareRaw (cfg : MwConfig) (st : RawStages) (req : Request) : MwRawResult :=
  match st.toPER req (fetchRequiredData req st.required) with
  | .error e => ⟨[some e], [], none, 0⟩
  | .ok opaRequest =>
    match st.dpath req with
    | .error e => ⟨[some e], [], none, 0⟩
    | .ok p =>
      let policyPath := cfg.url ++ p
      match st.doPost req policyPath opaRequest with
      | .error e => ⟨[some e], [], none, 1⟩
      | .ok data =>
        let pe : PolicyEvaluation := ⟨opaRequest, data, policyPath⟩
        let req' : Request := { req with policyEvaluation := some pe }
        if cfg.admissionDisabledEnv || cfg.dryRunEnabled then
          match st.onDecision req' with
          | .error e => ⟨[some e], [], some pe, 1⟩
          | .ok calls =>
            ⟨calls.map (fun _ => none),
             calls.map (fun err =>
               (cfg.dryRunHeader, if err.isSome then "reject" else "allow")),
             some pe, 1⟩
        else
          match st.onDecision req' with
          | .error e => ⟨[some e], [], some pe, 1⟩
          | .ok calls => ⟨calls, [], some pe, 1⟩

/-- The decision-handler slot as the library defaults actually wire it:
`onDecision = onDecisionDefault` stores the zero-parameter factory itself,
without parentheses.  The JS call `onDecision(req, res, next)` therefore
executes the factory, which ignores the three arguments and returns the
inner closure as its value — never invoking `next`: no throw and zero
continuation calls. -/
def onDecisionFactoryMiswired (_req : Request) : Except JsError (List (Option JsError)) :=
  .ok []

/-- Scenario-3 stages under the library-default handler wiring: the
decision point denies and the handler slot holds the uninvoked factory.
The builder and resolver stages are given as the invoked default closures;
the default wiring's identical mis-assignment of the path factory only
garbles the URL string and has no bearing on this claim's failure. -/
def stDefaultHandlerWiring : RawStages :=
  { required := [],
    toPER := fun req required => .ok (toPolicyEvaluationRequestDefault req required),
    dpath := fun req => .ok (decisionPathDefault req),
    doPost := fun _ _ _ => .ok decisionAllowFalse,
    onDecision := onDecisionFactoryMiswired }

/-- The same stages with the handler slot holding the closure the factory
returns (the behaviour the README documents): one continuation call. -/
def stClosureHandlerWiring : RawStages :=
  { stDefaultHandlerWiring with
    onDecision := fun req => (onDecisionDefault req).map (fun err => [err]) }

/-- Claim C2 (code bug): in the spec's end-to-end scenario 3 — dry run
enabled, header name `x-authorizer`, decision `allow:false` — the claim
requires the host continuation to be called with no error and the response
header `x-authorizer` to read `reject`.  Under the library-default wiring
the handler slot holds the uninvoked factory `onDecisionDefault`, which
ignores its arguments and never calls the wrapper continuation: the run
invokes the host continuation zero times and appends no header, so the
request hangs.  Had the slot held the closure the factory returns, the run
would behave exactly as claimed (one bare `next()`, header `reject`). -/
theorem c2_default_wiring_never_calls_continuation :
    (opaMiddlewareRaw cfgDryRun stDefaultHandlerWiring reqUsers).nextCalls = [] ∧
    (opaMiddlewareRaw cfgDryRun stDefaultHandlerWiring reqUsers).headersAppended = [] ∧
    (opaMiddlewareRaw cfgDryRun stClosureHandlerWiring reqUsers).nextCalls = [none] ∧
    (opaMiddlewareRaw cfgDryRun stClosureHandlerWiring reqUsers).headersAppended =
      [("x-authorizer", "reject")] :=
  ⟨rfl, rfl, rfl, rfl⟩

/-- Claim C3: whenever the remote decision-point call resolves, the
middleware attaches `policyEvaluation = {decision, request: payload, path:
fullPath}` to the request before the decision handler runs, and the handler
is invoked on the request carrying that very record — in enforced and in
dry-run/disabled mode alike. -/
theorem c3_policy_evaluation_attached
    (cfg : MwConfig) (st : Stages) (req : Request) (pay data : JVal) (p : String)
    (hb : st.toPER req (fetchRequiredData req st.required) = .ok pay)
    (hp : st.dpath req = .ok p)
    (hd : st.doPost req (cfg.url ++ p) pay = .ok data) :
    (opaMiddleware cfg st req).attached = some ⟨pay, data, cfg.url ++ p⟩ ∧
    (opaMiddleware cfg st req).handlerInvokedOn = some ⟨pay, data, cfg.url ++ p⟩ := by
  simp only [opaMiddleware, hb, hp, hd]
  split
  · split <;> simp
  · split <;> simp

/-- Witness for C3 at the concrete dry-run scenario configuration. -/
theorem c3_policy_evaluation_attached_witness :
    (opaMiddleware cfgDryRun stDryRun reqUsers).attached =
      some ⟨toPolicyEvaluationRequestDefault reqUsers [], decisionAllowFalse,
            "http://opa:8181/v1/data/users"⟩ :=
  (c3_policy_evaluation_attached cfgDryRun stDryRun reqUsers
    (toPolicyEvaluationRequestDefault reqUsers []) decisionAllowFalse "/users"
    rfl rfl rfl).1

/-- Claim C7: every exception thrown by the payload builder, the path
resolver, the decision-point client or the decision handler is caught and
forwarded unmodified to the host continuation as `next(err)`, and the
decision-point client is called at most once per request (no retry). -/
theorem c7_error_forwarding (cfg : MwConfig) (st : Stages) (req : Request) (e : JsError) :
    (st.toPER req (fetchRequiredData req st.required) = .error e →
      (opaMiddleware cfg st req).outcome = .nextErr e) ∧
    (∀ pay, st.toPER req (fetchRequiredData req st.required) = .ok pay →
      st.dpath req = .error e →
      (opaMiddleware cfg st req).outcome = .nextErr e) ∧
    (∀ pay p, st.toPER req (fetchRequiredData req st.required) = .ok pay →
      st.dpath req = .ok p →
      st.doPost req (cfg.url ++ p) pay = .error e →
      (opaMiddleware cfg st req).outcome = .nextErr e) ∧
    (∀ pay p data, st.toPER req (fetchRequiredData req st.required) = .ok pay →
      st.dpath req = .ok p →
      st.doPost req (cfg.url ++ p) pay = .ok data →
      st.onDecision { req with policyEvaluation := some ⟨pay, data, cfg.url ++ p⟩ } =
        .error e →
      (opaMiddleware cfg st req).outcome = .nextErr e) ∧
    (opaMiddleware cfg st req).postCalls ≤ 1 := by
  refine ⟨?_, ?_, ?_, ?_, ?_⟩
  · intro h1
    simp [opaMiddleware, h1]
  · intro pay h1 h2
    simp [opaMiddleware, h1, h2]
  · intro pay p h1 h2 h3
    simp [opaMiddleware, h1, h2, h3]
  · intro pay p data h1 h2 h3 h4
    simp only [opaMiddleware, h1, h2, h3, h4]
    split <;> simp
  · cases h1 : st.toPER req (fetchRequiredData req st.required) with
    | error e1 => simp [opaMiddleware, h1]
    | ok pay =>
      cases h2 : st.dpath req with
      | error e2 => simp [opaMiddleware, h1, h2]
      | ok p =>
        cases h3 : st.doPost req (cfg.url ++ p) pay with
        | error e3 => simp [opaMiddleware, h1, h2, h3]
        | ok data =>
          simp only [opaMiddleware, h1, h2, h3]
          split
          · split <;> simp
          · split <;> simp

/-- The enforced-mode policy configuration (dry run off, no override). -/
def cfgEnforced : MwConfig :=
  { url := "http://opa:8181/v1/data", dryRunEnabled := false, dryRunHeader := "x-authorizer",
    admissionDisabledEnv := false, production := false }

/-- Stages whose decision-point client fails with a connection error. -/
def stPostFails : Stages :=
  { required := [],
    toPER := fun req required => .ok (toPolicyEvaluationRequestDefault req required),
    dpath := fun req => .ok (decisionPathDefault req),
    doPost := fun _ _ _ => .error ⟨"ECONNREFUSED"⟩,
    onDecision := onDecisionDefault }

/-- Witness for C7: a failing decision-point call surfaces unmodified as
`next(err)`. -/
theorem c7_error_forwarding_witness :
    (opaMiddleware cfgEnforced stPostFails reqUsers).outcome = .nextErr ⟨"ECONNREFUSED"⟩ :=
  (c7_error_forwarding cfgEnforced stPostFails reqUsers ⟨"ECONNREFUSED"⟩).2.2.1
    (toPolicyEvaluationRequestDefault reqUsers []) "/users" rfl rfl rfl

/-- Claim C9: in dry-run / admission-control-disabled mode every error the
decision handler passes to the wrapper continuation — whatever its content —
is discarded after the header is set to `reject`: the host continuation is
invoked with no argument, so no handler-reported error reaches the host's
error channel. -/
theorem c9_dry_run_discards_handler_errors
    (cfg : MwConfig) (st : Stages) (req : Request) (pay data : JVal) (p : String)
    (e : JsError)
    (hmode : cfg.admissionDisabledEnv = true ∨ cfg.dryRunEnabled = true)
    (hb : st.toPER req (fetchRequiredData req st.required) = .ok pay)
    (hp : st.dpath req = .ok p)
    (hd : st.doPost req (cfg.url ++ p) pay = .ok data)
    (hh : st.onDecision { req with policyEvaluation := some ⟨pay, data, cfg.url ++ p⟩ } =
      .ok (some e)) :
    (opaMiddleware cfg st req).outcome = .nextOk ∧
    (opaMiddleware cfg st req).headersAppended = [(cfg.dryRunHeader, "reject")] := by
  have hcond : (cfg.admissionDisabledEnv || cfg.dryRunEnabled) = true := by
    rcases hmode with h | h <;> simp [h]
  simp [opaMiddleware, hb, hp, hd, hcond, hh]

/-- A configuration where only the environment override disables admission
control. -/
def cfgEnvDisabled : MwConfig :=
  { url := "http://opa:8181/v1/data", dryRunEnabled := false, dryRunHeader := "x-authorizer",
    admissionDisabledEnv := true, production := true }

/-- Stages whose decision handler rejects with a custom, non-policy error. -/
def stCustomReject : Stages :=
  { required := [],
    toPER := fun req required => .ok (toPolicyEvaluationRequestDefault req required),
    dpath := fun req => .ok (decisionPathDefault req),
    doPost := fun _ _ _ => .ok decisionAllowFalse,
    onDecision := fun _ => .ok (some ⟨"custom tenant mismatch"⟩) }

/-- Witness for C9: a custom handler error is swallowed under the
environment override and only tags the header. -/
theorem c9_dry_run_discards_handler_errors_witness :
    (opaMiddleware cfgEnvDisabled stCustomReject reqUsers).outcome = .nextOk ∧
    (opaMiddleware cfgEnvDisabled stCustomReject reqUsers).headersAppended =
      [("x-authorizer", "reject")] :=
  c9_dry_run_discards_handler_errors cfgEnvDisabled stCustomReject reqUsers
    (toPolicyEvaluationRequestDefault reqUsers []) decisionAllowFalse "/users"
    ⟨"custom tenant mismatch"⟩ (Or.inl rfl) rfl rfl rfl rfl

/-- Claim C5: in the required-field extraction, each key of a mapping with
distinct keys ends up bound to its own extractor's outcome — the extracted
value on success, `undefined` when that extractor throws — so one
extractor's exception never disturbs the other fields and never aborts the
aggregation (which always returns a map). -/
theorem c5_extractor_isolation
    (req : Request) (required : List (String × (Request → Except JsError JVal)))
    (k : String) (f : Request → Except JsError JVal)
    (hnd : (required.map Prod.fst).Nodup) (hmem : (k, f) ∈ required) :
    objLookup k (fetchRequiredData req required) = some (extractVal req f) := by
  unfold fetchRequiredData
  exact fetchRequiredData_objLookup_aux req required k f hnd hmem []

/-- An extractor that throws (the `x-tenant` header is absent). -/
def extractTenant : Request → Except JsError JVal := fun _ => .error ⟨"header missing"⟩

/-- An extractor that succeeds, returning the request method. -/
def extractMethod : Request → Except JsError JVal := fun r => .ok (JVal.str r.method)

/-- A required mapping with one throwing and one succeeding extractor. -/
def requiredMixed : List (String × (Request → Except JsError JVal)) :=
  [("tenant", extractTenant), ("m", extractMethod)]

/-- Witness for C5: the throwing extractor yields `undefined` under its key
while the other key still receives its computed value. -/
theorem c5_extractor_isolation_witness :
    objLookup "tenant" (fetchRequiredData reqUsers requiredMixed) = some JVal.undef ∧
    objLookup "m" (fetchRequiredData reqUsers requiredMixed) = some (JVal.str "GET") := by
  constructor
  · exact c5_extractor_isolation reqUsers requiredMixed "tenant" extractTenant
      (by decide) (by simp [requiredMixed])
  · exact c5_extractor_isolation reqUsers requiredMixed "m" extractMethod
      (by decide) (by simp [requiredMixed])

/-- Claim C6: the effective configuration `merge({}, defaults, options)` is
the deep merge of the defaults and the per-route options with per-field
override precedence: under distinct keys, a key found in the options wins
(merging recursively when both sides are objects, so nested objects combine
field-by-field instead of being replaced wholesale), and a key absent from
the options keeps its default. -/
theorem c6_deep_merge_override (df of : List (String × JVal))
    (hd : (df.map Prod.fst).Nodup) (ho : (of.map Prod.fst).Nodup) (k : String) :
    objLookup k (objFields (effectiveConfig (.obj df) (.obj of))) =
      match objLookup k of, objLookup k df with
      | some vo, some vd => some (mergeVal vd vo)
      | some vo, none => some vo
      | none, some vd => some vd
      | none, none => none := by
  unfold effectiveConfig
  rw [show mergeVal (JVal.obj []) (JVal.obj df) = JVal.obj (mergeFields [] df) from by
    simp [mergeVal]]
  rw [show mergeVal (JVal.obj (mergeFields [] df)) (JVal.obj of) =
      JVal.obj (mergeFields (mergeFields [] df) of) from by simp [mergeVal]]
  unfold objFields
  rw [mergeFields_objLookup of _ ho k, mergeFields_objLookup df _ hd k]
  cases hdf : objLookup k df <;> cases hof : objLookup k of <;> simp [objLookup]

/-- The defaults object `{a: 1, b: 2}` of the merge example. -/
def dfExample : List (String × JVal) := [("a", JVal.num 1), ("b", JVal.num 2)]

/-- The per-route override `{b: 3}` of the merge example. -/
def ofExample : List (String × JVal) := [("b", JVal.num 3)]

/-- Witness for C6: with defaults `{a:1, b:2}` and override `{b:3}` the
effective configuration reads `{a:1, b:3}` — never `{b:3}` alone. -/
theorem c6_deep_merge_override_witness :
    objLookup "a" (objFields (effectiveConfig (.obj dfExample) (.obj ofExample))) =
      some (JVal.num 1) ∧
    objLookup "b" (objFields (effectiveConfig (.obj dfExample) (.obj ofExample))) =
      some (JVal.num 3) := by
  constructor
  · have h := c6_deep_merge_override dfExample ofExample (by decide) (by decide) "a"
    simpa [dfExample, ofExample, objLookup] using h
  · have h := c6_deep_merge_override dfExample ofExample (by decide) (by decide) "b"
    simpa [dfExample, ofExample, objLookup, mergeVal] using h

end Jorah
